import Mathlib

/-!
Verification of the pyhecate per-video processing pipeline
(`pyhecate/__init__.py`) against its natural-language specification.

Shallow embedding conventions:
* Filesystem names and paths are lists of characters (`FPath`), matching
  Python strings compared code-point-wise.
* Python integers are `ℤ`; `int(a / b)` on integers is modelled as exact
  truncating division (`Int.tdiv`), and `int(float(x))` for a decimal
  field `x` as truncation toward zero of an exact rational (`pytrunc`).
* External processes (`ffprobe`, `hecate`, `ffmpeg`) are modelled by
  explicit outcome values (`ProbeExec`, `MuxOutcome`, stage flags) that
  the embedded control flow inspects exactly as the source does.
* Filesystem state is an explicit record (`FS`) of directories, files
  and trashed files; `send2trash` moves a file from `files` to `trash`.
-/

/-- Filesystem names and paths as character lists (Python `str`). -/
abbrev FPath := List Char

/-- Model of `os.path.join dir name` for a relative `name`. -/
def pathJoin (dir name : FPath) : FPath := dir ++ '/' :: name

/-- Model of Python `str.lower` (ASCII case folding, as used on file names). -/
def lowerL (l : FPath) : FPath := l.map Char.toLower

/-- Model of Python `str.endswith suffix`. -/
def endsWithL (l suffix : FPath) : Bool := List.isPrefixOf suffix.reverse l.reverse

/-- Python string comparison: lexicographic by code point, a strict
prefix compares below the longer string. -/
def lexLe : FPath → FPath → Bool
  | [], _ => true
  | _ :: _, [] => false
  | a :: as, b :: bs =>
      if a.toNat < b.toNat then true
      else if b.toNat < a.toNat then false
      else lexLe as bs

/-- Model of `os.path.split(p)[1]`: the part after the last slash. -/
def basename (p : FPath) : FPath :=
  (p.reverse.takeWhile (fun c => decide (c ≠ '/'))).reverse

/-- Model of `os.path.split(p)[0]`: the part before the last slash. -/
def dirname (p : FPath) : FPath :=
  p.take (p.length - (basename p).length - 1)

/-- Model of `os.path.splitext(name)[0]`: the name with its last
dot-extension removed; a dot-only stem (leading dots) yields no split. -/
def splitextRoot (name : FPath) : FPath :=
  let ext := name.reverse.takeWhile (fun c => decide (c ≠ '.'))
  if ext.length = name.length then name
  else
    let stem := name.take (name.length - ext.length - 1)
    if stem.any (fun c => decide (c ≠ '.')) then stem else name

/-- Model of `os.path.abspath` relative to a current working directory:
absolute paths are kept, relative ones are joined to `cwd`. -/
def abspath (cwd p : FPath) : FPath :=
  if p.head? = some '/' then p else pathJoin cwd p

/-- Filesystem state: existing directories, existing files, and files
moved to the recoverable trash by `send2trash`. -/
structure FS where
  dirs : List FPath
  files : List FPath
  trash : List FPath
deriving DecidableEq

/-- Model of `os.path.exists` restricted to files. -/
def fileExists (p : FPath) (fs : FS) : Bool := decide (p ∈ fs.files)

/-- Model of `if not os.path.exists(d): os.makedirs(d)`. -/
def mkdirIfAbsent (d : FPath) (fs : FS) : FS :=
  if d ∈ fs.dirs then fs else { fs with dirs := d :: fs.dirs }

/-- Model of `if os.path.exists(p): send2trash(p)`: the file, when
present, is removed from the live tree and recorded in the trash. -/
def trashIfExists (p : FPath) (fs : FS) : FS :=
  if p ∈ fs.files then
    { fs with files := fs.files.filter (fun q => decide (q ≠ p)),
              trash := p :: fs.trash }
  else fs

/-- An external tool writing (or overwriting) the file `p`. -/
def addFile (p : FPath) (fs : FS) : FS := { fs with files := p :: fs.files }

/-! ### Metadata probe (`PyHecateVideo._get_video_meta`) -/

/-- Truncation toward zero of an exact rational, the semantics of
Python `int(float(x))` on a decimal duration field. -/
def pytrunc (q : ℚ) : ℤ := Int.tdiv q.num q.den

/-- One entry of the ffprobe `streams` list: a codec type plus the
fields read by the probe, each `none` when absent (Python `dict.get`). -/
structure FFStream where
  codec_type : FPath
  duration : Option ℚ
  width : Option ℤ
  height : Option ℤ
deriving DecidableEq

/-- The codec-type tag of video streams (source string `"video"`). -/
def vcodecName : FPath := ['v', 'i', 'd', 'e', 'o']

/-- The codec-type tag of audio streams (source string `"audio"`). -/
def acodecName : FPath := ['a', 'u', 'd', 'i', 'o']

/-- Outcome of running the external ffprobe process on one file:
the four failure modes caught in `_get_video_meta`, or a parsed
`streams` list. -/
inductive ProbeExec where
  | toolNotFound
  | calledProcessError
  | jsonDecodeError
  | fileVanished
  | ok (streams : List FFStream)
deriving DecidableEq

/-- Result record of the probe (`VideoMetadata` in the source). -/
structure VideoMetadata where
  success : Bool
  vseconds : ℤ
  vwidth : ℤ
  vheight : ℤ
  vaudio : Bool
deriving DecidableEq

/-- One iteration of the stream loop in `_get_video_meta`: a video
stream overwrites the three numeric fields, an audio stream sets the
audio flag. -/
def scan_stream (acc : VideoMetadata) (s : FFStream) : VideoMetadata :=
  let acc1 :=
    if s.codec_type = vcodecName then
      { acc with vseconds := pytrunc (s.duration.getD 0),
                 vwidth := s.width.getD 0,
                 vheight := s.height.getD 0 }
    else acc
  if s.codec_type = acodecName then { acc1 with vaudio := true } else acc1

/-- The stream loop of `_get_video_meta`, started from zeroed fields. -/
def parseStreams (streams : List FFStream) : VideoMetadata :=
  streams.foldl scan_stream
    { success := false, vseconds := 0, vwidth := 0, vheight := 0, vaudio := false }

/-- Model of `_get_video_meta`: failures leave every field zeroed;
a parsed response is scanned, then zero width or height downgrades
`success` while keeping the parsed field values. -/
def get_video_meta (px : ProbeExec) : VideoMetadata :=
  match px with
  | ProbeExec.ok streams =>
      let scan := parseStreams streams
      if scan.vwidth = 0 ∨ scan.vheight = 0 then
        { scan with success := false }
      else
        { scan with success := true }
  | _ =>
      { success := false, vseconds := 0, vwidth := 0, vheight := 0, vaudio := false }

/-- The last stream tagged `video` in a response, the one whose fields
survive the overwrite in the stream loop. -/
def lastVideoStream (streams : List FFStream) : Option FFStream :=
  streams.reverse.find? (fun s => decide (s.codec_type = vcodecName))

/-- The first stream tagged `video` in a response; stated from the
spec's words ("the first stream of type video") for comparison with
the source's behaviour. -/
def firstVideoStream (streams : List FFStream) : Option FFStream :=
  streams.find? (fun s => decide (s.codec_type = vcodecName))

/-! ### Basic lemmas about the probe model -/

theorem pytrunc_eq_floor (q : ℚ) (h : 0 ≤ q) : pytrunc q = ⌊q⌋ := by
  unfold pytrunc
  rw [Int.tdiv_eq_ediv (Rat.num_nonneg.mpr h) (Int.ofNat_nonneg q.den)]
  exact (Rat.floor_def).symm

theorem pytrunc_eq_ceil (q : ℚ) (h : q < 0) : pytrunc q = ⌈q⌉ := by
  have hnum : q.num < 0 := Rat.num_neg.mpr h
  have h1 : pytrunc q = -((-q).num.tdiv ((-q).den : ℤ)) := by
    unfold pytrunc
    rw [Rat.neg_num, Rat.neg_den, Int.neg_tdiv, Int.neg_neg]
  rw [h1, Int.tdiv_eq_ediv (by rw [Rat.neg_num]; omega) (Int.ofNat_nonneg (-q).den)]
  rw [← Rat.floor_def, Int.floor_neg, neg_neg]

theorem pytrunc_zero : pytrunc 0 = 0 := by decide

theorem parseStreams_append (l : List FFStream) (x : FFStream) :
    parseStreams (l ++ [x]) = scan_stream (parseStreams l) x := by
  unfold parseStreams
  rw [List.foldl_append]
  rfl

theorem parseStreams_spec (streams : List FFStream) :
    ((parseStreams streams).vaudio
        = streams.any (fun s => decide (s.codec_type = acodecName))) ∧
    (match lastVideoStream streams with
     | some s =>
         (parseStreams streams).vseconds = pytrunc (s.duration.getD 0) ∧
         (parseStreams streams).vwidth = s.width.getD 0 ∧
         (parseStreams streams).vheight = s.height.getD 0
     | none =>
         (parseStreams streams).vseconds = 0 ∧
         (parseStreams streams).vwidth = 0 ∧
         (parseStreams streams).vheight = 0) := by
  induction streams using List.reverseRecOn with
  | nil => exact ⟨rfl, rfl, rfl, rfl⟩
  | append_singleton l x ih =>
      obtain ⟨iha, ihv⟩ := ih
      rw [parseStreams_append]
      have hrev : (l ++ [x]).reverse = x :: l.reverse := by
        simp
      have hva : ¬ (vcodecName = acodecName) := by decide
      have hav : ¬ (acodecName = vcodecName) := by decide
      constructor
      · by_cases hx : x.codec_type = acodecName
        · simp [scan_stream, hx]
        · by_cases hv : x.codec_type = vcodecName <;>
            simp [scan_stream, hx, hv, iha, hva]
      · unfold lastVideoStream at ihv ⊢
        rw [hrev]
        by_cases hv : x.codec_type = vcodecName
        · have hxa : ¬ x.codec_type = acodecName := by
            rw [hv]; decide
          simp [List.find?, hv, scan_stream, hxa, hva]
        · simp only [List.find?, decide_eq_true_eq, hv, decide_False]
          revert ihv
          cases l.reverse.find? (fun s => decide (s.codec_type = vcodecName)) with
          | none =>
              intro ihv
              by_cases ha : x.codec_type = acodecName <;>
                simp [scan_stream, hv, ha, ihv, hav]
          | some s =>
              intro ihv
              by_cases ha : x.codec_type = acodecName <;>
                simp [scan_stream, hv, ha, ihv, hav]

theorem get_video_meta_fields (streams : List FFStream) :
    (get_video_meta (ProbeExec.ok streams)).vseconds = (parseStreams streams).vseconds ∧
    (get_video_meta (ProbeExec.ok streams)).vwidth = (parseStreams streams).vwidth ∧
    (get_video_meta (ProbeExec.ok streams)).vheight = (parseStreams streams).vheight ∧
    (get_video_meta (ProbeExec.ok streams)).vaudio = (parseStreams streams).vaudio := by
  have h : get_video_meta (ProbeExec.ok streams) =
      (if (parseStreams streams).vwidth = 0 ∨ (parseStreams streams).vheight = 0 then
        { parseStreams streams with success := false }
      else
        { parseStreams streams with success := true }) := rfl
  rw [h]
  split <;> simp

/-! ### Lexicographic order lemmas for Python `sorted` -/

theorem lexLe_total (a : FPath) : ∀ b : FPath, lexLe a b = true ∨ lexLe b a = true := by
  induction a with
  | nil => intro b; left; rfl
  | cons x as ih =>
      intro b
      cases b with
      | nil => right; rfl
      | cons y bs =>
          show (if x.toNat < y.toNat then true
                else if y.toNat < x.toNat then false else lexLe as bs) = true ∨
               (if y.toNat < x.toNat then true
                else if x.toNat < y.toNat then false else lexLe bs as) = true
          rcases Nat.lt_trichotomy x.toNat y.toNat with h | h | h
          · left; simp [h]
          · have h1 : ¬ x.toNat < y.toNat := by omega
            have h2 : ¬ y.toNat < x.toNat := by omega
            simpa [h1, h2] using ih bs
          · right; simp [h]

theorem lexLe_trans {a b c : FPath} (h1 : lexLe a b = true) (h2 : lexLe b c = true) :
    lexLe a c = true := by
  induction a generalizing b c with
  | nil => rfl
  | cons x as ih =>
      cases b with
      | nil => simp [lexLe] at h1
      | cons y bs =>
          cases c with
          | nil => simp [lexLe] at h2
          | cons z cs =>
              show (if x.toNat < z.toNat then true
                    else if z.toNat < x.toNat then false else lexLe as cs) = true
              rw [show lexLe (x :: as) (y :: bs)
                    = (if x.toNat < y.toNat then true
                       else if y.toNat < x.toNat then false else lexLe as bs) from rfl] at h1
              rw [show lexLe (y :: bs) (z :: cs)
                    = (if y.toNat < z.toNat then true
                       else if z.toNat < y.toNat then false else lexLe bs cs) from rfl] at h2
              by_cases hxy : x.toNat < y.toNat <;> by_cases hyz : y.toNat < z.toNat
              · have h3 : x.toNat < z.toNat := by omega
                simp [h3]
              · simp only [if_neg hyz] at h2
                by_cases hzy : z.toNat < y.toNat
                · simp [hzy] at h2
                · have : x.toNat < z.toNat := by omega
                  simp [this]
              · simp only [if_neg hxy] at h1
                by_cases hyx : y.toNat < x.toNat
                · simp [hyx] at h1
                · have : x.toNat < z.toNat := by omega
                  simp [this]
              · simp only [if_neg hxy] at h1
                simp only [if_neg hyz] at h2
                by_cases hyx : y.toNat < x.toNat
                · simp [hyx] at h1
                · by_cases hzy : z.toNat < y.toNat
                  · simp [hzy] at h2
                  · have hxz : ¬ x.toNat < z.toNat := by omega
                    have hzx : ¬ z.toNat < x.toNat := by omega
                    rw [if_neg hyx] at h1
                    rw [if_neg hzy] at h2
                    simp only [if_neg hxz, if_neg hzx]
                    exact ih h1 h2

instance : IsTotal FPath (fun a b => lexLe a b = true) := ⟨lexLe_total⟩

instance : IsTrans FPath (fun a b => lexLe a b = true) :=
  ⟨fun _ _ _ h1 h2 => lexLe_trans h1 h2⟩

/-! ### Output-folder planning (`PyHecateVideo.prep_outfolders`) -/

/-- Decimal rendering of an integer, for f-string folder names. -/
def intName (n : ℤ) : FPath := (toString n).toList

/-- The snapshot count computed in `prep_outfolders`:
`max(int(self.vseconds / self.isumfreq), 10) if self.isumfreq > 0 else 10`. -/
def numsnaps (vseconds isumfreq : ℤ) : ℤ :=
  if 0 < isumfreq then max (Int.tdiv vseconds isumfreq) 10 else 10

/-- The per-video state fields of `PyHecateVideo` read by
`prep_outfolders`: configuration plus the probed video metadata. -/
structure VideoCfg where
  outdir : FPath
  base : FPath
  isumfreq : ℤ
  vsumlength : ℤ
  gifwidth : ℤ
  isum : Bool
  vsum : Bool
  vseconds : ℤ
  vwidth : ℤ
deriving DecidableEq

/-- The derived output layout computed by `prep_outfolders`: the
snapshot count and the optional directory and file paths, each set
exactly when its feature flag is enabled. -/
structure OutputLayout where
  numsnaps : ℤ
  jpgdir : Option FPath
  gifdir : Option FPath
  gifsumdir : Option FPath
  mp4dir : Option FPath
  mp4tmppath : Option FPath
  mp4sumpath : Option FPath
  mp4outpath : Option FPath
deriving DecidableEq

/-- Model of `prep_outfolders`: ensures the video output root exists,
raises a `ValueError` (modelled as `Except.error`, a configuration
error distinct from the `Bool` runtime failures) when `isumfreq` is
negative, then creates the feature subdirectories, trashes a stale
temporary summary, and computes the named file paths. Returns the
filesystem after all side effects together with the outcome. -/
def prep_outfolders (v : VideoCfg) (fs : FS) : FS × Except String OutputLayout :=
  let fs1 := mkdirIfAbsent v.outdir fs
  if v.isumfreq < 0 then
    (fs1, Except.error "isumfreq must be non-negative")
  else
    let ns := numsnaps v.vseconds v.isumfreq
    let jdirs :=
      if v.isum then
        let j := pathJoin v.outdir (['j', 'p', 'g', '-'] ++ intName v.vwidth)
        let g := pathJoin v.outdir (['g', 'i', 'f', '-'] ++ intName v.gifwidth)
        let gs := pathJoin v.outdir (['g', 'i', 'f', 's', 'u', 'm', '-'] ++ intName v.gifwidth)
        (some j, some g, some gs, mkdirIfAbsent gs (mkdirIfAbsent g (mkdirIfAbsent j fs1)))
      else (none, none, none, fs1)
    let mdirs :=
      if v.vsum then
        let m := pathJoin v.outdir (['m', 'p', '4', '-'] ++ intName v.vsumlength)
        let fs3 := mkdirIfAbsent m jdirs.2.2.2
        let tmp := pathJoin v.outdir (v.base ++ ['_', 's', 'u', 'm', '.', 'm', 'p', '4'])
        let fs4 := trashIfExists tmp fs3
        let sump := pathJoin m
          (v.base ++ ['_', 's', 'u', 'm', '-'] ++ intName v.vsumlength ++ ['.', 'm', 'p', '4'])
        let outp := pathJoin m
          (v.base ++ ['_', 'o', 'u', 't', 's', 'u', 'm', '-'] ++ intName v.vsumlength
            ++ ['.', 'm', 'p', '4'])
        (some m, some tmp, some sump, some outp, fs4)
      else (none, none, none, none, jdirs.2.2.2)
    (mdirs.2.2.2.2,
     Except.ok
       { numsnaps := ns
         jpgdir := jdirs.1
         gifdir := jdirs.2.1
         gifsumdir := jdirs.2.2.1
         mp4dir := mdirs.1
         mp4tmppath := mdirs.2.1
         mp4sumpath := mdirs.2.2.1
         mp4outpath := mdirs.2.2.2.1 })

/-! ### Outro concatenation (`PyHecateVideo.add_outro`) -/

/-- The output-track selection of the concatenation request passed to
the muxer: `ffmpeg.concat(..., v=1, a=1)` or `ffmpeg.concat(..., v=1)`. -/
structure ConcatRequest where
  videoTracks : ℕ
  audioTracks : ℕ
deriving DecidableEq

/-- The concatenation request built in `add_outro`: video+audio when
both the main summary and the outro have audio, video-only otherwise. -/
def buildConcat (vaudio oaudio : Bool) : ConcatRequest :=
  if vaudio && oaudio then { videoTracks := 1, audioTracks := 1 }
  else { videoTracks := 1, audioTracks := 0 }

/-- Outcome of the external muxer invocation in `add_outro`:
whether the input/concat setup raises an `ffmpeg.Error`, whether the
execution raises, the process return code, and whether a (partial)
output file was written before a failure. -/
structure MuxOutcome where
  setupRaises : Bool
  runRaises : Bool
  returncode : ℤ
  wrotePartial : Bool
deriving DecidableEq

/-- Result of `add_outro`: the returned flag, the filesystem after the
step, and the concatenation request that was handed to the muxer (if
the step got that far). -/
structure OutroResult where
  ok : Bool
  fs : FS
  request : Option ConcatRequest
deriving DecidableEq

/-- Model of `add_outro`. The guard mirrors
`if not self.outro or not self.mp4sumpath or not self.mp4outpath`;
the outro file is probed, the concat request built from the two audio
flags, and every failure path sends an existing output file to the
trash and returns `False`, leaving the summary file untouched. -/
def add_outro (outro mp4sumpath mp4outpath : Option FPath) (vaudio : Bool)
    (outroProbe : ProbeExec) (mux : MuxOutcome) (fs : FS) : OutroResult :=
  match outro, mp4sumpath, mp4outpath with
  | some _, some _, some outp =>
      let outro_meta := get_video_meta outroProbe
      if outro_meta.success then
        if mux.setupRaises then
          { ok := false, fs := trashIfExists outp fs, request := none }
        else
          let req := buildConcat vaudio outro_meta.vaudio
          if mux.runRaises then
            { ok := false,
              fs := trashIfExists outp (if mux.wrotePartial then addFile outp fs else fs),
              request := some req }
          else if mux.returncode ≠ 0 then
            { ok := false,
              fs := trashIfExists outp (if mux.wrotePartial then addFile outp fs else fs),
              request := some req }
          else
            { ok := true, fs := addFile outp fs, request := some req }
      else
        { ok := false, fs := fs, request := none }
  | _, _, _ => { ok := false, fs := fs, request := none }

/-! ### Single-video pipeline (`PyHecateVideo.summarize`) -/

/-- Outcomes of the stages driven by `summarize`: the main probe, the
hecate run, the reorganization step, and the data consumed by an outro
attempt. The filesystem effects of hecate and of the reorganization
are part of the ambient `FS` handed to the outro phase. -/
structure StageEnv where
  probeMain : ProbeExec
  hecateOk : Bool
  cleanupOk : Bool
  outroProbe : ProbeExec
  mux : MuxOutcome
deriving DecidableEq

/-- Model of `summarize` for a video whose planning succeeded
(`isumfreq ≥ 0`): abort on probe, hecate or cleanup failure; then,
when a video summary was requested, an outro is configured, and both
the outro and the produced summary file exist, run `add_outro` —
whose failure is only logged and never changes the `True` result. -/
def summarize (vsum : Bool) (outro mp4sumpath mp4outpath : Option FPath)
    (env : StageEnv) (fs : FS) : Bool × FS :=
  let meta := get_video_meta env.probeMain
  if !meta.success then (false, fs)
  else if !env.hecateOk then (false, fs)
  else if !env.cleanupOk then (false, fs)
  else
    let outroExists := match outro with
      | some o => fileExists o fs
      | none => false
    let sumExists := match mp4sumpath with
      | some s => fileExists s fs
      | none => false
    if vsum && outroExists && sumExists then
      (true, (add_outro outro mp4sumpath mp4outpath meta.vaudio env.outroProbe env.mux fs).fs)
    else (true, fs)

/-! ### Batch coordinator (`PyHecate.__init__`, `execute`, `process_video`) -/

/-- What the filesystem says about the input path when the batch
coordinator resolves it: existence, directory / file kind, and the
directory listing (`os.listdir`). -/
structure BatchEnv where
  pathExists : Bool
  isDir : Bool
  isFile : Bool
  listing : List FPath
deriving DecidableEq

/-- State established by `PyHecate.__init__`: the output root (unset
when the constructor returned before assigning it) and the resolved
video list. -/
structure BatchInit where
  outdir : Option FPath
  vpaths : List FPath
deriving DecidableEq

/-- The video file extension filter of directory mode:
`p.lower().endswith(".mp4")`. -/
def isVideoName (nm : FPath) : Bool :=
  endsWithL (lowerL nm) ['.', 'm', 'p', '4']

/-- Model of `PyHecate.__init__`: a missing input path returns before
anything is established; otherwise the output root is resolved (an
explicit override wins, else the input directory in directory mode or
the input file's parent), and the video list is the sorted, filtered
directory listing in directory mode or the single input file. -/
def pyhecate_init (cwd path : FPath) (dir_mode : Bool) (outdirOpt : Option FPath)
    (env : BatchEnv) : BatchInit :=
  if !env.pathExists then { outdir := none, vpaths := [] }
  else
    let abs := abspath cwd path
    let outdir := match outdirOpt with
      | some o => abspath cwd o
      | none => if dir_mode then abs else dirname abs
    if dir_mode then
      if !env.isDir then { outdir := some outdir, vpaths := [] }
      else
        { outdir := some outdir
          vpaths := List.insertionSort (fun a b => lexLe a b = true)
            ((env.listing.filter isVideoName).map (fun nm => pathJoin abs nm)) }
    else
      if !env.isFile then { outdir := some outdir, vpaths := [] }
      else { outdir := some outdir, vpaths := [abs] }

/-- Model of `PyHecate.execute`: an empty video list returns `True`;
otherwise the aggregate result is the conjunction of the per-video
results, every video being processed. -/
def execute (st : BatchInit) (processOk : FPath → Bool) : Bool :=
  if st.vpaths = [] then true
  else st.vpaths.foldl (fun acc v => acc && processOk v) true

/-- The video-specific output directory derived in `process_video`:
`os.path.join(self.outdir, os.path.splitext(os.path.split(vpath)[1])[0])`. -/
def voutdir (outdir vpath : FPath) : FPath :=
  pathJoin outdir (splitextRoot (basename vpath))

/-! ### Filesystem helper lemmas -/

theorem mem_files_trashIfExists (p q : FPath) (fs : FS) :
    q ∈ (trashIfExists p fs).files ↔ q ∈ fs.files ∧ q ≠ p := by
  unfold trashIfExists
  split
  · simp [List.mem_filter]
  · rename_i hp
    constructor
    · intro hq
      exact ⟨hq, fun he => hp (he ▸ hq)⟩
    · exact fun h => h.1

theorem mem_trash_trashIfExists_self (p : FPath) (fs : FS) (h : p ∈ fs.files) :
    p ∈ (trashIfExists p fs).trash := by
  unfold trashIfExists
  rw [if_pos h]
  exact List.mem_cons_self _ _

theorem mem_files_addFile (p q : FPath) (fs : FS) :
    q ∈ (addFile p fs).files ↔ q = p ∨ q ∈ fs.files := by
  unfold addFile
  simp

theorem dirs_mkdirIfAbsent (d e : FPath) (fs : FS) :
    e ∈ (mkdirIfAbsent d fs).dirs ↔ e = d ∨ e ∈ fs.dirs := by
  unfold mkdirIfAbsent
  split
  · rename_i hd
    constructor
    · exact fun h => Or.inr h
    · rintro (rfl | h)
      · exact hd
      · exact h
  · simp

/-- C1: for every non-negative duration `d` and interval `i ≥ 0`, the
snapshot count of Planning equals `max(floor(d/i), 10)` when `i > 0`,
equals `10` when `i = 0`, and is never less than `10`. -/
theorem c1_numsnaps_spec (d i : ℤ) (hd : 0 ≤ d) (hi : 0 ≤ i) :
    (0 < i → numsnaps d i = max ⌊(d : ℚ) / (i : ℚ)⌋ 10) ∧
    (i = 0 → numsnaps d i = 10) ∧
    10 ≤ numsnaps d i := by
  refine ⟨?_, ?_, ?_⟩
  · intro hpos
    unfold numsnaps
    rw [if_pos hpos]
    congr 1
    rw [Int.tdiv_eq_ediv hd (le_of_lt hpos)]
    have h1 : ((i.toNat : ℤ)) = i := Int.toNat_of_nonneg hi
    have h2 : ((i.toNat : ℕ) : ℚ) = (i : ℚ) := by
      exact_mod_cast congrArg (fun z : ℤ => (z : ℚ)) h1
    calc d / i = d / ((i.toNat : ℕ) : ℤ) := by rw [h1]
      _ = ⌊(d : ℚ) / ((i.toNat : ℕ) : ℚ)⌋ := (Rat.floor_intCast_div_natCast d i.toNat).symm
      _ = ⌊(d : ℚ) / (i : ℚ)⌋ := by rw [h2]
  · intro h0
    unfold numsnaps
    rw [if_neg (by omega)]
  · unfold numsnaps
    split
    · exact le_max_right _ _
    · exact le_refl 10

theorem c1_witness :
    (0 : ℤ) ≤ 300 ∧ (0 : ℤ) ≤ 30 ∧
    ((0 < (30 : ℤ) → numsnaps 300 30 = max ⌊(300 : ℚ) / (30 : ℚ)⌋ 10) ∧
      ((30 : ℤ) = 0 → numsnaps 300 30 = 10) ∧
      10 ≤ numsnaps 300 30) ∧
    numsnaps 300 30 = 10 ∧ numsnaps 3000 30 = 100 ∧ numsnaps 300 0 = 10 :=
  ⟨by decide, by decide, c1_numsnaps_spec 300 30 (by decide) (by decide),
   by decide, by decide, by decide⟩

/-- C6: for every negative snapshot interval, Planning returns the
configuration error (the modelled `ValueError`, not a `Bool` runtime
failure) and creates no feature subdirectory: the only directory it
may have added is the video output root itself, and no file is
touched. -/
theorem c6_negative_interval_raises (v : VideoCfg) (fs : FS) (h : v.isumfreq < 0) :
    (prep_outfolders v fs).2 = Except.error "isumfreq must be non-negative" ∧
    (∀ d ∈ (prep_outfolders v fs).1.dirs, d ∈ fs.dirs ∨ d = v.outdir) ∧
    (prep_outfolders v fs).1.files = fs.files ∧
    (prep_outfolders v fs).1.trash = fs.trash := by
  have hstep : prep_outfolders v fs
      = (mkdirIfAbsent v.outdir fs, Except.error "isumfreq must be non-negative") := by
    unfold prep_outfolders
    rw [if_pos h]
  rw [hstep]
  refine ⟨rfl, ?_, ?_, ?_⟩
  · intro d hd
    rcases (dirs_mkdirIfAbsent v.outdir d fs).mp hd with h1 | h1
    · exact Or.inr h1
    · exact Or.inl h1
  · unfold mkdirIfAbsent
    split <;> rfl
  · unfold mkdirIfAbsent
    split <;> rfl

def cfgC6 : VideoCfg :=
  { outdir := ['/', 'o'], base := ['o'], isumfreq := -1, vsumlength := 16,
    gifwidth := 360, isum := true, vsum := true, vseconds := 100, vwidth := 640 }

def fsC6 : FS := { dirs := [], files := [], trash := [] }

theorem c6_witness :
    cfgC6.isumfreq < 0 ∧
    ((prep_outfolders cfgC6 fsC6).2 = Except.error "isumfreq must be non-negative" ∧
      (∀ d ∈ (prep_outfolders cfgC6 fsC6).1.dirs, d ∈ fsC6.dirs ∨ d = cfgC6.outdir) ∧
      (prep_outfolders cfgC6 fsC6).1.files = fsC6.files ∧
      (prep_outfolders cfgC6 fsC6).1.trash = fsC6.trash) :=
  ⟨by decide, c6_negative_interval_raises cfgC6 fsC6 (by decide)⟩

/-- C4: when the outro step reaches the muxer, the concatenation
request it builds is `buildConcat` of the two audio flags, and that
request has two output tracks (1 video + 1 audio) exactly when both
videos have audio, and one output track (video only) whenever at
least one of them lacks audio. -/
theorem c4_concat_track_selection (va : Bool) (o s outp : FPath) (px : ProbeExec)
    (mux : MuxOutcome) (fs : FS)
    (hp : (get_video_meta px).success = true)
    (hsetup : mux.setupRaises = false) :
    (add_outro (some o) (some s) (some outp) va px mux fs).request
      = some (buildConcat va (get_video_meta px).vaudio) ∧
    ∀ oa : Bool,
      ((buildConcat va oa).videoTracks + (buildConcat va oa).audioTracks = 2
        ↔ (va = true ∧ oa = true)) ∧
      ((va = false ∨ oa = false) →
        (buildConcat va oa).videoTracks + (buildConcat va oa).audioTracks = 1) := by
  constructor
  · show (if (get_video_meta px).success = true then _ else _ : OutroResult).request = _
    rw [if_pos hp, if_neg (by rw [hsetup]; exact Bool.false_ne_true)]
    split
    · rfl
    · split
      · rfl
      · rfl
  · intro oa
    cases va <;> cases oa <;> simp [buildConcat]

def fsC4 : FS := { dirs := [], files := [], trash := [] }

def probeC4 : ProbeExec :=
  ProbeExec.ok
    [{ codec_type := vcodecName, duration := none, width := some 640, height := some 480 },
     { codec_type := acodecName, duration := none, width := none, height := none }]

def muxC4 : MuxOutcome :=
  { setupRaises := false, runRaises := false, returncode := 0, wrotePartial := false }

theorem c4_witness :
    (get_video_meta probeC4).success = true ∧ muxC4.setupRaises = false ∧
    ((add_outro (some ['o']) (some ['s']) (some ['p']) true probeC4 muxC4 fsC4).request
        = some (buildConcat true (get_video_meta probeC4).vaudio) ∧
      ∀ oa : Bool,
        ((buildConcat true oa).videoTracks + (buildConcat true oa).audioTracks = 2
          ↔ (true = true ∧ oa = true)) ∧
        ((true = false ∨ oa = false) →
          (buildConcat true oa).videoTracks + (buildConcat true oa).audioTracks = 1)) :=
  ⟨by decide, by decide,
   c4_concat_track_selection true ['o'] ['s'] ['p'] probeC4 muxC4 fsC4 (by decide) (by decide)⟩

theorem add_outro_fail_state (o s outp : FPath) (va : Bool) (px : ProbeExec)
    (mux : MuxOutcome) (fs : FS)
    (hfail : (add_outro (some o) (some s) (some outp) va px mux fs).ok = false) :
    (∀ q : FPath, q ≠ outp →
      (q ∈ (add_outro (some o) (some s) (some outp) va px mux fs).fs.files ↔ q ∈ fs.files)) ∧
    ((get_video_meta px).success = true →
      outp ∉ (add_outro (some o) (some s) (some outp) va px mux fs).fs.files) ∧
    ((get_video_meta px).success = true → mux.setupRaises = false →
      (mux.wrotePartial = true ∨ outp ∈ fs.files) →
      outp ∈ (add_outro (some o) (some s) (some outp) va px mux fs).fs.trash) := by
  have hred : add_outro (some o) (some s) (some outp) va px mux fs
      = (if (get_video_meta px).success = true then
          (if mux.setupRaises = true then
            { ok := false, fs := trashIfExists outp fs, request := none }
          else
            if mux.runRaises = true then
              { ok := false,
                fs := trashIfExists outp (if mux.wrotePartial then addFile outp fs else fs),
                request := some (buildConcat va (get_video_meta px).vaudio) }
            else if mux.returncode ≠ 0 then
              { ok := false,
                fs := trashIfExists outp (if mux.wrotePartial then addFile outp fs else fs),
                request := some (buildConcat va (get_video_meta px).vaudio) }
            else
              { ok := true, fs := addFile outp fs,
                request := some (buildConcat va (get_video_meta px).vaudio) })
        else { ok := false, fs := fs, request := none }) := rfl
  rw [hred] at hfail ⊢
  by_cases hsucc : (get_video_meta px).success = true
  · rw [if_pos hsucc] at hfail ⊢
    by_cases hsetup : mux.setupRaises = true
    · rw [if_pos hsetup] at hfail ⊢
      refine ⟨?_, ?_, ?_⟩
      · intro q hq
        rw [mem_files_trashIfExists]
        exact ⟨fun h => h.1, fun h => ⟨h, hq⟩⟩
      · intro _ hmem
        exact ((mem_files_trashIfExists outp outp fs).mp hmem).2 rfl
      · intro _ hs2
        rw [hsetup] at hs2
        exact Bool.noConfusion hs2
    · rw [if_neg hsetup] at hfail ⊢
      by_cases hrun : mux.runRaises = true
      · rw [if_pos hrun] at hfail ⊢
        refine ⟨?_, ?_, ?_⟩
        · intro q hq
          rw [mem_files_trashIfExists]
          constructor
          · intro h
            rcases h with ⟨h1, -⟩
            by_cases hw : mux.wrotePartial
            · rw [if_pos hw] at h1
              rcases (mem_files_addFile outp q fs).mp h1 with h2 | h2
              · exact absurd h2 hq
              · exact h2
            · rwa [if_neg hw] at h1
          · intro h
            refine ⟨?_, hq⟩
            by_cases hw : mux.wrotePartial
            · rw [if_pos hw]
              exact (mem_files_addFile outp q fs).mpr (Or.inr h)
            · rwa [if_neg hw]
        · intro _ hmem
          exact ((mem_files_trashIfExists outp outp _).mp hmem).2 rfl
        · intro _ _ hpre
          apply mem_trash_trashIfExists_self
          rcases hpre with hw | hmem
          · rw [if_pos hw]
            exact (mem_files_addFile outp outp fs).mpr (Or.inl rfl)
          · by_cases hw : mux.wrotePartial
            · rw [if_pos hw]
              exact (mem_files_addFile outp outp fs).mpr (Or.inr hmem)
            · rwa [if_neg hw]
      · rw [if_neg hrun] at hfail ⊢
        by_cases hret : mux.returncode ≠ 0
        · rw [if_pos hret] at hfail ⊢
          refine ⟨?_, ?_, ?_⟩
          · intro q hq
            rw [mem_files_trashIfExists]
            constructor
            · intro h
              rcases h with ⟨h1, -⟩
              by_cases hw : mux.wrotePartial
              · rw [if_pos hw] at h1
                rcases (mem_files_addFile outp q fs).mp h1 with h2 | h2
                · exact absurd h2 hq
                · exact h2
              · rwa [if_neg hw] at h1
            · intro h
              refine ⟨?_, hq⟩
              by_cases hw : mux.wrotePartial
              · rw [if_pos hw]
                exact (mem_files_addFile outp q fs).mpr (Or.inr h)
              · rwa [if_neg hw]
          · intro _ hmem
            exact ((mem_files_trashIfExists outp outp _).mp hmem).2 rfl
          · intro _ _ hpre
            apply mem_trash_trashIfExists_self
            rcases hpre with hw | hmem
            · rw [if_pos hw]
              exact (mem_files_addFile outp outp fs).mpr (Or.inl rfl)
            · by_cases hw : mux.wrotePartial
              · rw [if_pos hw]
                exact (mem_files_addFile outp outp fs).mpr (Or.inr hmem)
              · rwa [if_neg hw]
        · rw [if_neg hret] at hfail
          exact absurd hfail (by simp)
  · rw [if_neg hsucc] at hfail ⊢
    refine ⟨fun q _ => Iff.rfl, ?_, ?_⟩
    · intro hs2
      exact absurd hs2 hsucc
    · intro hs2
      exact absurd hs2 hsucc

/-- C3: whenever the outro-appending step fails (outro probe failure,
muxer non-zero exit, or a raised error from the muxing call), the
already-produced summary file stays in place, any output file written
by the attempt (or present beforehand when the muxer ran) is moved to
the trash and is never left among the live files, and `summarize`
still returns overall success for that video. -/
theorem c3_outro_failure_nonfatal (o s outp : FPath) (env : StageEnv) (fs : FS)
    (hmain : (get_video_meta env.probeMain).success = true)
    (hhec : env.hecateOk = true) (hcln : env.cleanupOk = true)
    (ho : fileExists o fs = true) (hs : fileExists s fs = true)
    (hne : s ≠ outp)
    (hfail : (add_outro (some o) (some s) (some outp)
        (get_video_meta env.probeMain).vaudio env.outroProbe env.mux fs).ok = false) :
    (summarize true (some o) (some s) (some outp) env fs).1 = true ∧
    fileExists s (summarize true (some o) (some s) (some outp) env fs).2 = true ∧
    ((get_video_meta env.outroProbe).success = true →
      fileExists outp (summarize true (some o) (some s) (some outp) env fs).2 = false) ∧
    ((get_video_meta env.outroProbe).success = true → env.mux.setupRaises = false →
      (env.mux.wrotePartial = true ∨ fileExists outp fs = true) →
      outp ∈ (summarize true (some o) (some s) (some outp) env fs).2.trash) := by
  have hsum : summarize true (some o) (some s) (some outp) env fs
      = (true, (add_outro (some o) (some s) (some outp)
          (get_video_meta env.probeMain).vaudio env.outroProbe env.mux fs).fs) := by
    simp [summarize, hmain, hhec, hcln, ho, hs]
  obtain ⟨hmemiff, hout, htrash⟩ := add_outro_fail_state o s outp
    (get_video_meta env.probeMain).vaudio env.outroProbe env.mux fs hfail
  rw [hsum]
  refine ⟨rfl, ?_, ?_, ?_⟩
  · simp only [fileExists, decide_eq_true_eq] at hs ⊢
    exact (hmemiff s hne).mpr hs
  · intro hps
    simp only [fileExists, decide_eq_false_iff_not]
    exact hout hps
  · intro hps hsetup hpre
    apply htrash hps hsetup
    rcases hpre with h | h
    · exact Or.inl h
    · simp only [fileExists, decide_eq_true_eq] at h
      exact Or.inr h

def envC3 : StageEnv :=
  { probeMain := ProbeExec.ok
      [{ codec_type := vcodecName, duration := none, width := some 640, height := some 480 }]
    hecateOk := true
    cleanupOk := true
    outroProbe := ProbeExec.ok
      [{ codec_type := vcodecName, duration := none, width := some 320, height := some 240 }]
    mux := { setupRaises := false, runRaises := false, returncode := 1, wrotePartial := true } }

def fsC3 : FS := { dirs := [], files := [['o'], ['s']], trash := [] }

theorem c3_witness :
    (get_video_meta envC3.probeMain).success = true ∧
    envC3.hecateOk = true ∧ envC3.cleanupOk = true ∧
    fileExists ['o'] fsC3 = true ∧ fileExists ['s'] fsC3 = true ∧
    (['s'] : FPath) ≠ ['p'] ∧
    (add_outro (some ['o']) (some ['s']) (some ['p'])
      (get_video_meta envC3.probeMain).vaudio envC3.outroProbe envC3.mux fsC3).ok = false ∧
    ((summarize true (some ['o']) (some ['s']) (some ['p']) envC3 fsC3).1 = true ∧
      fileExists ['s'] (summarize true (some ['o']) (some ['s']) (some ['p']) envC3 fsC3).2 = true ∧
      ((get_video_meta envC3.outroProbe).success = true →
        fileExists ['p'] (summarize true (some ['o']) (some ['s']) (some ['p']) envC3 fsC3).2 = false) ∧
      ((get_video_meta envC3.outroProbe).success = true → envC3.mux.setupRaises = false →
        (envC3.mux.wrotePartial = true ∨ fileExists ['p'] fsC3 = true) →
        (['p'] : FPath) ∈ (summarize true (some ['o']) (some ['s']) (some ['p']) envC3 fsC3).2.trash)) :=
  ⟨by decide, by decide, by decide, by decide, by decide, by decide, by decide,
   c3_outro_failure_nonfatal ['o'] ['s'] ['p'] envC3 fsC3
     (by decide) (by decide) (by decide) (by decide) (by decide) (by decide) (by decide)⟩

theorem get_video_meta_ok (streams : List FFStream) :
    get_video_meta (ProbeExec.ok streams)
      = (if (parseStreams streams).vwidth = 0 ∨ (parseStreams streams).vheight = 0 then
          { parseStreams streams with success := false }
        else
          { parseStreams streams with success := true }) := rfl

def streamsC5 : List FFStream :=
  [{ codec_type := vcodecName, duration := some 100, width := some 0, height := some 480 }]

/-- C5 counterexample: a response whose video stream has zero width but
a nonzero duration and height yields `success = false` with the parsed
duration and height still in place — the numeric fields are not all
zeroed as the claim states. -/
theorem c5_counterexample :
    (get_video_meta (ProbeExec.ok streamsC5)).success = false ∧
    (get_video_meta (ProbeExec.ok streamsC5)).vseconds = 100 ∧
    (get_video_meta (ProbeExec.ok streamsC5)).vheight = 480 := by decide

/-- C5 (amended): the probe returns `success = false` with all numeric
fields zeroed when the tool is missing, exits non-zero, emits
unparseable output, or the file vanished; when the parsed width or
height is zero it also returns `success = false` — even though the
tool exited cleanly — but then the numeric fields keep their parsed
values instead of being zeroed. -/
theorem c5_probe_failure_modes (px : ProbeExec) :
    ((∀ streams, px ≠ ProbeExec.ok streams) →
      get_video_meta px
        = { success := false, vseconds := 0, vwidth := 0, vheight := 0, vaudio := false }) ∧
    (∀ streams, px = ProbeExec.ok streams →
      ((parseStreams streams).vwidth = 0 ∨ (parseStreams streams).vheight = 0) →
      (get_video_meta px).success = false ∧
      (get_video_meta px).vseconds = (parseStreams streams).vseconds ∧
      (get_video_meta px).vwidth = (parseStreams streams).vwidth ∧
      (get_video_meta px).vheight = (parseStreams streams).vheight) := by
  constructor
  · intro hne
    cases px with
    | toolNotFound => rfl
    | calledProcessError => rfl
    | jsonDecodeError => rfl
    | fileVanished => rfl
    | ok streams => exact absurd rfl (hne streams)
  · rintro streams rfl hz
    rw [get_video_meta_ok, if_pos hz]
    exact ⟨rfl, rfl, rfl, rfl⟩

theorem c5_witness :
    (get_video_meta ProbeExec.toolNotFound
      = { success := false, vseconds := 0, vwidth := 0, vheight := 0, vaudio := false }) ∧
    ((get_video_meta (ProbeExec.ok streamsC5)).success = false ∧
      (get_video_meta (ProbeExec.ok streamsC5)).vseconds = (parseStreams streamsC5).vseconds ∧
      (get_video_meta (ProbeExec.ok streamsC5)).vwidth = (parseStreams streamsC5).vwidth ∧
      (get_video_meta (ProbeExec.ok streamsC5)).vheight = (parseStreams streamsC5).vheight) :=
  ⟨(c5_probe_failure_modes ProbeExec.toolNotFound).1 (fun _ h => ProbeExec.noConfusion h),
   (c5_probe_failure_modes (ProbeExec.ok streamsC5)).2 streamsC5 rfl (by decide)⟩

def streamsC8 : List FFStream :=
  [{ codec_type := vcodecName, duration := none, width := some 100, height := some 100 },
   { codec_type := vcodecName, duration := none, width := some 200, height := some 200 }]

/-- C8 counterexample: in a response with two video streams, the probe
reports the dimensions of the second (last) video stream, not of the
first one named by the claim. -/
theorem c8_counterexample :
    (firstVideoStream streamsC8).map (fun s => s.width.getD 0) = some 100 ∧
    (get_video_meta (ProbeExec.ok streamsC8)).vwidth = 200 := by decide

/-- C8 (amended): the probe takes duration, width and height from the
LAST stream of type video in the stream list (each later video stream
overwrites the previous one), and reports `hasAudio = true` exactly
when some stream of type audio exists. -/
theorem c8_last_video_stream (streams : List FFStream) :
    ((get_video_meta (ProbeExec.ok streams)).vaudio = true
        ↔ ∃ s ∈ streams, s.codec_type = acodecName) ∧
    (∀ s, lastVideoStream streams = some s →
      (get_video_meta (ProbeExec.ok streams)).vseconds = pytrunc (s.duration.getD 0) ∧
      (get_video_meta (ProbeExec.ok streams)).vwidth = s.width.getD 0 ∧
      (get_video_meta (ProbeExec.ok streams)).vheight = s.height.getD 0) := by
  obtain ⟨hsec, hwid, hhei, haud⟩ := get_video_meta_fields streams
  obtain ⟨ha, hv⟩ := parseStreams_spec streams
  constructor
  · rw [haud, ha]
    simp [List.any_eq_true]
  · intro s hs
    rw [hs] at hv
    obtain ⟨h1, h2, h3⟩ := hv
    exact ⟨hsec.trans h1, hwid.trans h2, hhei.trans h3⟩

theorem c8_witness :
    lastVideoStream streamsC8
      = some { codec_type := vcodecName, duration := none,
               width := some 200, height := some 200 } ∧
    ((get_video_meta (ProbeExec.ok streamsC8)).vseconds
        = pytrunc (Option.getD (none : Option ℚ) 0) ∧
      (get_video_meta (ProbeExec.ok streamsC8)).vwidth = Option.getD (some (200 : ℤ)) 0 ∧
      (get_video_meta (ProbeExec.ok streamsC8)).vheight = Option.getD (some (200 : ℤ)) 0) :=
  ⟨by decide,
   (c8_last_video_stream streamsC8).2
     { codec_type := vcodecName, duration := none, width := some 200, height := some 200 }
     (by decide)⟩

def streamsC10 : List FFStream :=
  [{ codec_type := vcodecName, duration := none, width := some 100, height := some 100 },
   { codec_type := vcodecName, duration := none, width := some 0, height := some 0 }]

/-- C10 counterexample: a response whose FIRST video stream has positive
width and height and a missing duration can still make the probe fail,
because the code reads the last video stream, so the claim as stated
(quantified over the first video stream) is false. -/
theorem c10_counterexample :
    (firstVideoStream streamsC10).map
        (fun s => (s.width.getD 0, s.height.getD 0, s.duration)) = some (100, 100, none) ∧
    (get_video_meta (ProbeExec.ok streamsC10)).success = false := by decide

/-- C10 (amended): for every response whose LAST video stream has
positive width and height, the probe succeeds even when the duration
field is missing or zero — in which case `durationSeconds = 0` — so
probe success guarantees positive dimensions but not a positive
duration; a present duration is truncated toward zero (floor for
nonnegative values, ceiling for negative ones). -/
theorem c10_success_without_duration (streams : List FFStream) (s : FFStream)
    (hlast : lastVideoStream streams = some s)
    (hw : 0 < s.width.getD 0) (hh : 0 < s.height.getD 0) :
    (get_video_meta (ProbeExec.ok streams)).success = true ∧
    ((s.duration = none ∨ s.duration = some 0) →
      (get_video_meta (ProbeExec.ok streams)).vseconds = 0) ∧
    (∀ q : ℚ, s.duration = some q →
      (0 ≤ q → (get_video_meta (ProbeExec.ok streams)).vseconds = ⌊q⌋) ∧
      (q < 0 → (get_video_meta (ProbeExec.ok streams)).vseconds = ⌈q⌉)) := by
  obtain ⟨ha, hv⟩ := parseStreams_spec streams
  rw [hlast] at hv
  obtain ⟨h1, h2, h3⟩ := hv
  have hnz : ¬ ((parseStreams streams).vwidth = 0 ∨ (parseStreams streams).vheight = 0) := by
    rw [h2, h3]
    push_neg
    omega
  have hsec : (get_video_meta (ProbeExec.ok streams)).vseconds
      = pytrunc (s.duration.getD 0) := by
    rw [get_video_meta_ok, if_neg hnz]
    exact h1
  refine ⟨?_, ?_, ?_⟩
  · rw [get_video_meta_ok, if_neg hnz]
  · rintro (hd | hd) <;> rw [hsec, hd]
    · exact pytrunc_zero
    · exact pytrunc_zero
  · intro q hq
    rw [hsec, hq]
    constructor
    · intro hq0
      exact pytrunc_eq_floor q hq0
    · intro hq0
      exact pytrunc_eq_ceil q hq0

def streamsC10w : List FFStream :=
  [{ codec_type := vcodecName, duration := none, width := some 100, height := some 100 }]

theorem c10_witness :
    lastVideoStream streamsC10w
      = some { codec_type := vcodecName, duration := none,
               width := some 100, height := some 100 } ∧
    ((get_video_meta (ProbeExec.ok streamsC10w)).success = true ∧
      (get_video_meta (ProbeExec.ok streamsC10w)).vseconds = 0) :=
  ⟨by decide,
   (c10_success_without_duration streamsC10w
      { codec_type := vcodecName, duration := none, width := some 100, height := some 100 }
      (by decide) (by decide) (by decide)).1,
   (c10_success_without_duration streamsC10w
      { codec_type := vcodecName, duration := none, width := some 100, height := some 100 }
      (by decide) (by decide) (by decide)).2.1 (Or.inl rfl)⟩

/-- C2: behaviour at the failing input. When the input path does not
exist, the constructor indeed establishes nothing — no output root and
no videos — but the subsequent batch run returns `True` (overall
success), contradicting the claimed overall failure; the `execute`
docstring itself promises `False` when initialization failed. -/
theorem c2_nonexistent_path_reports_success :
    pyhecate_init ['/', 'w'] ['/', 'n', 'o', 'p', 'e'] false none
      { pathExists := false, isDir := false, isFile := false, listing := [] }
      = { outdir := none, vpaths := [] } ∧
    execute { outdir := none, vpaths := [] } (fun _ => false) = true := by decide

/-- C7: in directory mode, for an existing input directory and no
output-root override, the resolved output root is the absolute input
directory itself and the video list consists exactly of the listing
entries whose names case-insensitively end in `.mp4`, joined to the
directory, in sorted (lexicographic) order. -/
theorem c7_directory_mode_resolution (cwd path : FPath) (env : BatchEnv)
    (hex : env.pathExists = true) (hdir : env.isDir = true) :
    (pyhecate_init cwd path true none env).outdir = some (abspath cwd path) ∧
    List.Sorted (fun a b => lexLe a b = true)
      (pyhecate_init cwd path true none env).vpaths ∧
    (∀ q : FPath, q ∈ (pyhecate_init cwd path true none env).vpaths ↔
      ∃ nm ∈ env.listing, isVideoName nm = true ∧ q = pathJoin (abspath cwd path) nm) := by
  have hred : pyhecate_init cwd path true none env
      = { outdir := some (abspath cwd path)
          vpaths := List.insertionSort (fun a b => lexLe a b = true)
            ((env.listing.filter isVideoName).map
              (fun nm => pathJoin (abspath cwd path) nm)) } := by
    unfold pyhecate_init
    rw [hex, hdir]
    simp
  rw [hred]
  refine ⟨rfl, ?_, ?_⟩
  · exact List.sorted_insertionSort _ _
  · intro q
    rw [(List.perm_insertionSort _ _).mem_iff]
    constructor
    · intro hq
      obtain ⟨nm, hnm, hfa⟩ := List.mem_map.mp hq
      obtain ⟨h1, h2⟩ := List.mem_filter.mp hnm
      exact ⟨nm, h1, h2, hfa.symm⟩
    · rintro ⟨nm, h1, h2, rfl⟩
      exact List.mem_map.mpr ⟨nm, List.mem_filter.mpr ⟨h1, h2⟩, rfl⟩

def envC7 : BatchEnv :=
  { pathExists := true, isDir := true, isFile := false,
    listing := [['c', '.', 't', 'x', 't'], ['B', '.', 'M', 'P', '4'],
                ['a', '.', 'm', 'p', '4']] }

theorem c7_witness :
    envC7.pathExists = true ∧ envC7.isDir = true ∧
    ((pyhecate_init ['/', 'w'] ['/', 'i', 'n'] true none envC7).outdir
        = some (abspath ['/', 'w'] ['/', 'i', 'n']) ∧
      List.Sorted (fun a b => lexLe a b = true)
        (pyhecate_init ['/', 'w'] ['/', 'i', 'n'] true none envC7).vpaths ∧
      (∀ q : FPath, q ∈ (pyhecate_init ['/', 'w'] ['/', 'i', 'n'] true none envC7).vpaths ↔
        ∃ nm ∈ envC7.listing, isVideoName nm = true ∧
          q = pathJoin (abspath ['/', 'w'] ['/', 'i', 'n']) nm)) ∧
    (pyhecate_init ['/', 'w'] ['/', 'i', 'n'] true none envC7).vpaths
      = [['/', 'i', 'n', '/', 'B', '.', 'M', 'P', '4'],
         ['/', 'i', 'n', '/', 'a', '.', 'm', 'p', '4']] :=
  ⟨by decide, by decide,
   c7_directory_mode_resolution ['/', 'w'] ['/', 'i', 'n'] envC7 (by decide) (by decide),
   by decide⟩

/-- C9 counterexample: a batch over a directory that contains both
`video.mp4` and `video.MP4` resolves two distinct video paths whose
derived video-specific output directories coincide, so two videos of
one batch write into the same directory. -/
theorem c9_counterexample :
    (pyhecate_init ['/', 'w'] ['/', 'i', 'n'] true none
      { pathExists := true, isDir := true, isFile := false,
        listing := [['v', 'i', 'd', 'e', 'o', '.', 'm', 'p', '4'],
                    ['v', 'i', 'd', 'e', 'o', '.', 'M', 'P', '4']] }).vpaths
      = [['/', 'i', 'n', '/', 'v', 'i', 'd', 'e', 'o', '.', 'M', 'P', '4'],
         ['/', 'i', 'n', '/', 'v', 'i', 'd', 'e', 'o', '.', 'm', 'p', '4']] ∧
    (['/', 'i', 'n', '/', 'v', 'i', 'd', 'e', 'o', '.', 'M', 'P', '4'] : FPath)
      ≠ ['/', 'i', 'n', '/', 'v', 'i', 'd', 'e', 'o', '.', 'm', 'p', '4'] ∧
    voutdir ['/', 'i', 'n'] ['/', 'i', 'n', '/', 'v', 'i', 'd', 'e', 'o', '.', 'M', 'P', '4']
      = voutdir ['/', 'i', 'n'] ['/', 'i', 'n', '/', 'v', 'i', 'd', 'e', 'o', '.', 'm', 'p', '4']
    := by decide

/-- C9 (amended): two videos of a batch write into distinct output
directories whenever their basenames without extension differ; the
directories coincide exactly when the stems coincide (as with
`video.mp4` and `video.MP4`). -/
theorem c9_distinct_stems_distinct_dirs (outdir v1 v2 : FPath)
    (h : splitextRoot (basename v1) ≠ splitextRoot (basename v2)) :
    voutdir outdir v1 ≠ voutdir outdir v2 := by
  unfold voutdir pathJoin
  intro he
  apply h
  have h2 := List.append_cancel_left he
  injection h2

theorem c9_witness :
    splitextRoot (basename ['/', 'i', 'n', '/', 'a', '.', 'm', 'p', '4'])
      ≠ splitextRoot (basename ['/', 'i', 'n', '/', 'b', '.', 'm', 'p', '4']) ∧
    voutdir ['/', 'i', 'n'] ['/', 'i', 'n', '/', 'a', '.', 'm', 'p', '4']
      ≠ voutdir ['/', 'i', 'n'] ['/', 'i', 'n', '/', 'b', '.', 'm', 'p', '4'] :=
  ⟨by decide,
   c9_distinct_stems_distinct_dirs ['/', 'i', 'n']
     ['/', 'i', 'n', '/', 'a', '.', 'm', 'p', '4']
     ['/', 'i', 'n', '/', 'b', '.', 'm', 'p', '4'] (by decide)⟩
